import Mathlib

/-!
Verification of the certificate chain resolution engine of this repository
(package `ca_chain`, file `helpers/tls/ca_chain/resolver_url.go`).

The Go code is shallowly embedded:
* `Certificate` models the fields of `x509.Certificate` that the resolver
  reads: identity of subject and issuer, whether the signature verifies
  against the certificate's own public key, and the AIA issuer URL list.
  The Go slice `IssuingCertificateURL` distinguishes a nil slice from a
  present-but-empty one, hence `Option (List String)`.
* The injected collaborators `fetcher` and `decoder` are modelled as
  functions returning `Except`, mirroring Go's `(value, error)` pairs.
* A Go runtime panic (index out of range) is modelled by returning `none`
  at the outermost `Option` layer; a normal return `(certs, err)` is
  `some (chain?, err?)` where a Go nil slice result is `none` and a Go nil
  error is `none`.
* The unbounded `for` loop of `urlResolver.Resolve` increments `loop` and
  breaks as soon as `loop >= loopLimit`; with `loopLimit = L` the body
  therefore runs at most `L - 1` times, so the loop is embedded as
  structural recursion on the fuel `L - 1` (truncated subtraction).
-/

namespace CaChain

/-- Model of the `x509.Certificate` fields read by the resolver.
`subject` and `issuer` stand for the certificate's subject and issuer
identities, `selfSignatureValid` for whether its signature verifies against
its own embedded public key, and `IssuingCertificateURL` for the AIA issuer
URL slice (Go nil slice = `none`, non-nil slice = `some`). -/
structure Certificate where
  subject : String
  issuer : String
  selfSignatureValid : Bool
  IssuingCertificateURL : Option (List String)
deriving Repr, DecidableEq

/-- Errors produced by `urlResolver.fetchIssuerCertificate`: the Go code
builds them with `fmt.Errorf("remote fetch failure: %v", err)` and
`fmt.Errorf("decoding failure: %v", err)`; the wrapped cause is kept. -/
inductive FetchIssuerError where
  | remoteFetchFailure (cause : String)
  | decodingFailure (cause : String)
deriving Repr, DecidableEq

/-- The error returned by `urlResolver.Resolve`, built with
`fmt.Errorf("error while fetching issuer certificate: %v", err)`. -/
inductive ResolveError where
  | fetchIssuer (e : FetchIssuerError)
deriving Repr, DecidableEq

/-- The message text of a `fetchIssuerCertificate` error, as produced by
`fmt.Errorf` in the Go code. -/
def FetchIssuerError.message : FetchIssuerError → String
  | .remoteFetchFailure cause => "remote fetch failure: " ++ cause
  | .decodingFailure cause => "decoding failure: " ++ cause

/-- The message text of the error returned by `Resolve`. -/
def ResolveError.message : ResolveError → String
  | .fetchIssuer e => "error while fetching issuer certificate: " ++ e.message

/-- Model of the `urlResolver` struct: injected fetcher and decoder
collaborators plus the `loopLimit` configuration. Bytes are `List Nat`. -/
structure urlResolver where
  fetcher : String → Except String (List Nat)
  decoder : List Nat → Except String Certificate
  loopLimit : Nat

/-- Modelled from the spec: `isSelfSigned` (the root detector used by
`urlResolver.Resolve`) is not among the provided source files. The spec's
root-detection requirement is, quote, "issuer identity equals subject
identity AND the certificate's signature verifies against its own embedded
public key". -/
def isSelfSigned (cert : Certificate) : Bool :=
  cert.issuer == cert.subject && cert.selfSignatureValid

/-- The expression `cert.IssuingCertificateURL[0]` of the Go code: `none`
models the index-out-of-range panic Go raises when the slice is empty or
nil. -/
def firstIssuerURL (cert : Certificate) : Option String :=
  match cert.IssuingCertificateURL with
  | none => none
  | some urls => urls.head?

/-- Embedding of `urlResolver.fetchIssuerCertificate`: take the first AIA
URL (panic if out of range), fetch it, decode the bytes; wrap either
failure in the corresponding `FetchIssuerError`. -/
def urlResolver.fetchIssuerCertificate (r : urlResolver) (cert : Certificate) :
    Option (Except FetchIssuerError Certificate) :=
  match firstIssuerURL cert with
  | none => none
  | some issuerURL =>
    match r.fetcher issuerURL with
    | .error err => some (.error (.remoteFetchFailure err))
    | .ok data =>
      match r.decoder data with
      | .error err => some (.error (.decodingFailure err))
      | .ok newCert => some (.ok newCert)

/-- Embedding of the `for` loop of `urlResolver.Resolve`. The `fuel`
argument is `loopLimit - loop`: `0` corresponds to the `loop >= loopLimit`
check firing (warning logged, break, return accumulated chain with nil
error). Each iteration inspects the last certificate, breaks when its
AIA URL slice is nil, otherwise fetches and decodes the issuer; an error
returns `(nil, wrapped error)`; the new certificate is appended and the
loop breaks when it is self-signed. -/
def urlResolver.resolveLoop (r : urlResolver) :
    Nat → List Certificate → Option (Option (List Certificate) × Option ResolveError)
  | 0, certs => some (some certs, none)
  | fuel + 1, certs =>
    match certs.getLast? with
    | none => none
    | some certificate =>
      match certificate.IssuingCertificateURL with
      | none => some (some certs, none)
      | some _ =>
        match r.fetchIssuerCertificate certificate with
        | none => none
        | some (.error e) => some (none, some (.fetchIssuer e))
        | some (.ok newCert) =>
          if isSelfSigned newCert then some (some (certs ++ [newCert]), none)
          else r.resolveLoop fuel (certs ++ [newCert])

/-- Embedding of `urlResolver.Resolve`: an input of fewer than 1 element
returns `(nil, nil)` at once; otherwise the loop runs with `loopLimit - 1`
fuel (the Go loop counter starts at 0, is incremented before the
`loop >= loopLimit` check, so the body runs at most `loopLimit - 1`
times). -/
def urlResolver.Resolve (r : urlResolver) (certs : List Certificate) :
    Option (Option (List Certificate) × Option ResolveError) :=
  if certs.length < 1 then some (none, none)
  else r.resolveLoop (r.loopLimit - 1) certs

/-- Why the loop of `Resolve` stopped; used by the traced variant of the
embedding to make stop conditions and fetch attempts observable. -/
inductive StopReason where
  | nothingToResolve
  | limitExceeded
  | noIssuerURL
  | fetchDecodeError
  | rootReached
  | panicked
deriving Repr, DecidableEq

/-- Traced variant of `urlResolver.resolveLoop`: the same control flow,
additionally returning the list of URLs passed to the fetcher (in order)
and the reason the loop ended. -/
def urlResolver.resolveLoopT (r : urlResolver) :
    Nat → List Certificate →
      Option (Option (List Certificate) × Option ResolveError) × List String × StopReason
  | 0, certs => (some (some certs, none), [], .limitExceeded)
  | fuel + 1, certs =>
    match certs.getLast? with
    | none => (none, [], .panicked)
    | some certificate =>
      match certificate.IssuingCertificateURL with
      | none => (some (some certs, none), [], .noIssuerURL)
      | some urls =>
        match urls.head? with
        | none => (none, [], .panicked)
        | some issuerURL =>
          match r.fetcher issuerURL with
          | .error err =>
            (some (none, some (.fetchIssuer (.remoteFetchFailure err))), [issuerURL],
              .fetchDecodeError)
          | .ok data =>
            match r.decoder data with
            | .error err =>
              (some (none, some (.fetchIssuer (.decodingFailure err))), [issuerURL],
                .fetchDecodeError)
            | .ok newCert =>
              if isSelfSigned newCert then
                (some (some (certs ++ [newCert]), none), [issuerURL], .rootReached)
              else
                let rest := r.resolveLoopT fuel (certs ++ [newCert])
                (rest.1, issuerURL :: rest.2.1, rest.2.2)

/-- Traced variant of `urlResolver.Resolve`. -/
def urlResolver.ResolveT (r : urlResolver) (certs : List Certificate) :
    Option (Option (List Certificate) × Option ResolveError) × List String × StopReason :=
  if certs.length < 1 then (some (none, none), [], .nothingToResolve)
  else r.resolveLoopT (r.loopLimit - 1) certs

/-- Model of a Go `http.Response` as far as `httpFetcher.Fetch` reads it:
status code and body bytes. -/
structure HTTPResponse where
  statusCode : Nat
  body : List Nat
deriving Repr, DecidableEq

/-- Embedding of `httpFetcher.Fetch`: `get` stands for `http.Client.Get`
together with reading the body (`ioutil.ReadAll`); a transport or read
error is the `Except.error` case. The Go code returns the body bytes
without ever inspecting `resp.StatusCode`. -/
def httpFetcher.Fetch (get : String → Except String HTTPResponse) (url : String) :
    Except String (List Nat) :=
  match get url with
  | .error err => .error err
  | .ok resp => .ok resp.body

/-- Whether the character list `s` starts with `t`. -/
def leadsWith : List Char → List Char → Bool
  | _, [] => true
  | [], _ :: _ => false
  | c :: cs, d :: ds => c == d && leadsWith cs ds

/-- Whether the character list `s` contains `t` as a contiguous block. -/
def hasSub : List Char → List Char → Bool
  | [], t => t.isEmpty
  | c :: cs, t => leadsWith (c :: cs) t || hasSub cs t

/-- Whether the string `s` mentions `t` somewhere in its text. -/
def strHasSub (s t : String) : Bool :=
  hasSub s.data t.data

/-! Concrete certificates and resolvers used to exercise the embedding. -/

/-- A leaf certificate whose AIA list names the issuer URL "http://a". -/
def certA : Certificate :=
  { subject := "A", issuer := "A-issuer", selfSignatureValid := false,
    IssuingCertificateURL := some ["http://a"] }

/-- A non-root intermediate certificate pointing at "http://b". -/
def certB : Certificate :=
  { subject := "B", issuer := "B-issuer", selfSignatureValid := false,
    IssuingCertificateURL := some ["http://b"] }

/-- A self-signed root certificate. -/
def rootCert : Certificate :=
  { subject := "R", issuer := "R", selfSignatureValid := true,
    IssuingCertificateURL := none }

/-- A certificate carrying no AIA issuer URL (a Go nil slice). -/
def noURLCert : Certificate :=
  { subject := "N", issuer := "N-issuer", selfSignatureValid := false,
    IssuingCertificateURL := none }

/-- A leaf certificate with a realistic identity and issuer URL. -/
def leafCert : Certificate :=
  { subject := "leaf-cert", issuer := "intermediate-ca",
    selfSignatureValid := false,
    IssuingCertificateURL := some ["http://issuer.example/ca.crt"] }

/-- A certificate whose AIA slice is present but empty (non-nil, length
zero in Go terms). -/
def emptyListCert : Certificate :=
  { subject := "E", issuer := "E-issuer", selfSignatureValid := false,
    IssuingCertificateURL := some [] }

/-- A certificate carrying two issuer URLs. -/
def twoURLCert : Certificate :=
  { subject := "T", issuer := "T-issuer", selfSignatureValid := false,
    IssuingCertificateURL := some ["http://bad", "http://good"] }

/-- A resolver whose fetcher always fails with "boom". -/
def failingFetchResolver : urlResolver :=
  { fetcher := fun _ => .error "boom",
    decoder := fun _ => .error "never decoded", loopLimit := 15 }

/-- A resolver whose fetcher always reports "connection refused". -/
def refusedResolver : urlResolver :=
  { fetcher := fun _ => .error "connection refused",
    decoder := fun _ => .error "never decoded", loopLimit := 15 }

/-- An HTTP endpoint answering every URL with status 500 and a 3-byte
error page. -/
def get500 : String → Except String HTTPResponse :=
  fun _ => .ok { statusCode := 500, body := [1, 2, 3] }

/-- A resolver fetching through `httpFetcher.Fetch` over `get500`, with a
decoder that rejects the error page. -/
def resolver500 : urlResolver :=
  { fetcher := httpFetcher.Fetch get500,
    decoder := fun _ => .error "not a certificate", loopLimit := 15 }

/-- A resolver whose issuer graph never ends: every fetch decodes to the
non-root `certB`. Its loop limit is 3, as in the spec's second usage
scene. -/
def unboundedResolver : urlResolver :=
  { fetcher := fun _ => .ok [0], decoder := fun _ => .ok certB,
    loopLimit := 3 }

/-- A resolver that succeeds on every fetch and decodes to the root. -/
def rootResolver : urlResolver :=
  { fetcher := fun _ => .ok [0], decoder := fun _ => .ok rootCert,
    loopLimit := 15 }

/-- A resolver for which the first URL of `twoURLCert` is down while the
alternate would succeed and decode to the root. -/
def twoURLResolver : urlResolver :=
  { fetcher := fun url =>
      if url == "http://bad" then .error "bad url down" else .ok [7],
    decoder := fun _ => .ok rootCert, loopLimit := 15 }

/-- Like `twoURLResolver` but with a fetcher that differs on every URL
other than "http://bad". -/
def altResolver : urlResolver :=
  { fetcher := fun url =>
      if url == "http://bad" then .error "bad url down"
      else .error "alternate consulted",
    decoder := fun _ => .ok rootCert, loopLimit := 15 }

/-! Shared lemmas about the embedding. -/

/-- The traced loop computes the same result as the plain loop. -/
theorem resolveLoopT_fst (r : urlResolver) :
    ∀ (fuel : Nat) (certs : List Certificate),
      (r.resolveLoopT fuel certs).1 = r.resolveLoop fuel certs := by
  intro fuel
  induction fuel with
  | zero => intro certs; rfl
  | succ fuel ih =>
    intro certs
    unfold urlResolver.resolveLoopT urlResolver.resolveLoop
    cases h1 : certs.getLast? with
    | none => rfl
    | some certificate =>
      cases h2 : certificate.IssuingCertificateURL with
      | none => simp [h2]
      | some urls =>
        cases h3 : urls.head? with
        | none =>
          simp [urlResolver.fetchIssuerCertificate, firstIssuerURL, h2, h3]
        | some issuerURL =>
          cases h4 : r.fetcher issuerURL with
          | error err =>
            simp [urlResolver.fetchIssuerCertificate, firstIssuerURL, h2, h3, h4]
          | ok data =>
            cases h5 : r.decoder data with
            | error err =>
              simp [urlResolver.fetchIssuerCertificate, firstIssuerURL, h2, h3, h4, h5]
            | ok newCert =>
              by_cases h6 : isSelfSigned newCert
              · simp [urlResolver.fetchIssuerCertificate, firstIssuerURL, h2, h3, h4, h5, h6]
              · simp [urlResolver.fetchIssuerCertificate, firstIssuerURL, h2, h3, h4, h5, h6,
                  ih]

/-- The traced resolver computes the same result as `Resolve`. -/
theorem ResolveT_fst (r : urlResolver) (certs : List Certificate) :
    (r.ResolveT certs).1 = r.Resolve certs := by
  unfold urlResolver.ResolveT urlResolver.Resolve
  by_cases h : certs.length < 1
  · simp [h]
  · simp [h, resolveLoopT_fst]

/-- An error outcome of the loop always carries a nil chain and wraps a
`fetchIssuerCertificate` failure. -/
theorem resolveLoop_error_none (r : urlResolver) :
    ∀ (fuel : Nat) (certs : List Certificate) (res : Option (List Certificate))
      (e : ResolveError),
      r.resolveLoop fuel certs = some (res, some e) →
      res = none ∧ ∃ fe, e = ResolveError.fetchIssuer fe := by
  intro fuel
  induction fuel with
  | zero =>
    intro certs res e h
    simp [urlResolver.resolveLoop] at h
  | succ fuel ih =>
    intro certs res e h
    unfold urlResolver.resolveLoop at h
    split at h
    · simp at h
    · split at h
      · simp at h
      · split at h
        · simp at h
        · rename_i e0 heq
          simp only [Option.some.injEq, Prod.mk.injEq] at h
          exact ⟨h.1.symm, e0, h.2.symm⟩
        · split at h
          · simp at h
          · exact ih _ _ _ h

/-- Any chain the loop returns extends the input chain by a suffix. -/
theorem resolveLoop_extends (r : urlResolver) :
    ∀ (fuel : Nat) (certs chain : List Certificate) (e : Option ResolveError),
      r.resolveLoop fuel certs = some (some chain, e) →
      ∃ t, chain = certs ++ t := by
  intro fuel
  induction fuel with
  | zero =>
    intro certs chain e h
    simp only [urlResolver.resolveLoop, Option.some.injEq, Prod.mk.injEq] at h
    exact ⟨[], by simp [h.1.symm]⟩
  | succ fuel ih =>
    intro certs chain e h
    unfold urlResolver.resolveLoop at h
    split at h
    · simp at h
    · split at h
      · simp only [Option.some.injEq, Prod.mk.injEq] at h
        exact ⟨[], by simp [h.1.symm]⟩
      · split at h
        · simp at h
        · simp at h
        · split at h
          · rename_i newCert hfetch hroot
            simp only [Option.some.injEq, Prod.mk.injEq] at h
            exact ⟨[newCert], h.1.symm⟩
          · rename_i newCert hfetch hcond
            obtain ⟨t, ht⟩ := ih _ _ _ h
            exact ⟨newCert :: t, by simpa using ht⟩

/-- Case analysis on a finished traced loop: the fetch-count bound, and
what each stop reason implies for the returned result. -/
theorem resolveLoopT_cases (r : urlResolver) :
    ∀ (fuel : Nat) (certs : List Certificate)
      (out : Option (Option (List Certificate) × Option ResolveError))
      (trace : List String) (reason : StopReason),
      r.resolveLoopT fuel certs = (out, trace, reason) →
      trace.length ≤ fuel ∧
      (reason = StopReason.limitExceeded →
        ∃ t, out = some (some (certs ++ t), none)) ∧
      (reason = StopReason.rootReached →
        ∃ chain c, out = some (some chain, none) ∧
          chain.getLast? = some c ∧ isSelfSigned c = true) ∧
      (reason = StopReason.fetchDecodeError →
        ∃ fe, out = some (none, some (ResolveError.fetchIssuer fe))) := by
  intro fuel
  induction fuel with
  | zero =>
    intro certs out trace reason h
    simp only [urlResolver.resolveLoopT, Prod.mk.injEq] at h
    obtain ⟨rfl, rfl, rfl⟩ := h
    exact ⟨by simp, fun _ => ⟨[], by simp⟩, by simp, by simp⟩
  | succ fuel ih =>
    intro certs out trace reason h
    unfold urlResolver.resolveLoopT at h
    split at h
    · simp only [Prod.mk.injEq] at h
      obtain ⟨rfl, rfl, rfl⟩ := h
      exact ⟨by simp, by simp, by simp, by simp⟩
    · split at h
      · simp only [Prod.mk.injEq] at h
        obtain ⟨rfl, rfl, rfl⟩ := h
        exact ⟨by simp, by simp, by simp, by simp⟩
      · split at h
        · simp only [Prod.mk.injEq] at h
          obtain ⟨rfl, rfl, rfl⟩ := h
          exact ⟨by simp, by simp, by simp, by simp⟩
        · split at h
          · rename_i err heq
            simp only [Prod.mk.injEq] at h
            obtain ⟨rfl, rfl, rfl⟩ := h
            exact ⟨by simp, by simp, by simp,
              fun _ => ⟨FetchIssuerError.remoteFetchFailure err, rfl⟩⟩
          · split at h
            · rename_i err heq
              simp only [Prod.mk.injEq] at h
              obtain ⟨rfl, rfl, rfl⟩ := h
              exact ⟨by simp, by simp, by simp,
                fun _ => ⟨FetchIssuerError.decodingFailure err, rfl⟩⟩
            · split at h
              · rename_i newCert hdec hroot
                simp only [Prod.mk.injEq] at h
                obtain ⟨rfl, rfl, rfl⟩ := h
                exact ⟨by simp, by simp,
                  fun _ => ⟨certs ++ [newCert], newCert, rfl,
                    List.getLast?_concat _, hroot⟩, by simp⟩
              · rename_i newCert hdec hcond
                dsimp only at h
                rcases hrec : r.resolveLoopT fuel (certs ++ [newCert]) with
                  ⟨out2, trace2, reason2⟩
                rw [hrec] at h
                simp only [Prod.mk.injEq] at h
                obtain ⟨rfl, rfl, rfl⟩ := h
                obtain ⟨hlen, hlim, hroot, hfetch⟩ := ih _ _ _ _ hrec
                refine ⟨by simpa using Nat.succ_le_succ hlen, ?klim, hroot, hfetch⟩
                intro hr
                obtain ⟨t, ht⟩ := hlim hr
                exact ⟨newCert :: t, by simpa using ht⟩
/-! Claims. -/

/-- C1: during `Resolve` a fetch or decode failure aborts the whole call:
whenever `Resolve` returns a non-nil error, the error wraps a
`fetchIssuerCertificate` failure and the chain returned alongside it is
nil; and whenever the traced run stops on a fetch/decode failure, the
result is exactly such an error with a nil chain — no partial or mutated
chain accompanies an error. -/
theorem C1_fetch_decode_error_aborts_with_nil_chain
    (r : urlResolver) (certs : List Certificate) :
    (∀ res e, r.Resolve certs = some (res, some e) →
      res = none ∧ ∃ fe, e = ResolveError.fetchIssuer fe) ∧
    (∀ out trace, r.ResolveT certs = (out, trace, StopReason.fetchDecodeError) →
      ∃ fe, out = some (none, some (ResolveError.fetchIssuer fe))) := by
  constructor
  · intro res e h
    unfold urlResolver.Resolve at h
    split at h
    · simp at h
    · exact resolveLoop_error_none r _ _ _ _ h
  · intro out trace h
    unfold urlResolver.ResolveT at h
    split at h
    · simp at h
    · exact (resolveLoopT_cases r _ _ _ _ _ h).2.2.2 rfl

/-- Witness for C1: a concrete run whose fetch fails with "boom". -/
theorem C1_fetch_decode_error_aborts_with_nil_chain_witness :
    (none : Option (List Certificate)) = none ∧
    ∃ fe, ResolveError.fetchIssuer (FetchIssuerError.remoteFetchFailure "boom") =
      ResolveError.fetchIssuer fe :=
  (C1_fetch_decode_error_aborts_with_nil_chain failingFetchResolver [certA]).1
    none (ResolveError.fetchIssuer (FetchIssuerError.remoteFetchFailure "boom")) rfl

/-- C2 counterexample: the issuer endpoint answers HTTP 500, yet
`httpFetcher.Fetch` succeeds with the error-page body — it never inspects
the status code — and `Resolve` then reports a decoding failure, not the
claimed fetch failure wrapping the HTTP error. -/
theorem C2_counterexample :
    httpFetcher.Fetch get500 "http://a" = .ok [1, 2, 3] ∧
    resolver500.Resolve [certA] =
      some (none, some (ResolveError.fetchIssuer
        (FetchIssuerError.decodingFailure "not a certificate"))) ∧
    strHasSub (ResolveError.fetchIssuer
      (FetchIssuerError.decodingFailure "not a certificate")).message
      "remote fetch failure" = false :=
  ⟨rfl, rfl, by decide⟩

/-- C2 amended: `Fetch` surfaces transport errors as fetch errors but
performs no status-code check, so the body of any response — success or
not — is returned as data; an HTTP 500 error page flows on to the decoder
instead of surfacing as a fetch error. -/
theorem C2_fetch_ignores_status
    (get : String → Except String HTTPResponse) (url : String) :
    (∀ e, get url = .error e → httpFetcher.Fetch get url = .error e) ∧
    (∀ resp, get url = .ok resp → httpFetcher.Fetch get url = .ok resp.body) := by
  constructor
  · intro e h
    unfold httpFetcher.Fetch
    rw [h]
  · intro resp h
    unfold httpFetcher.Fetch
    rw [h]

/-- Witness for C2 at the concrete 500-answering endpoint. -/
theorem C2_fetch_ignores_status_witness :
    httpFetcher.Fetch get500 "http://a" =
      .ok (HTTPResponse.mk 500 [1, 2, 3]).body :=
  (C2_fetch_ignores_status get500 "http://a").2 (HTTPResponse.mk 500 [1, 2, 3]) rfl

/-- C3: `Resolve` is a total function of the embedding (it always
terminates); a run with `loopLimit = N` consults the fetcher at most
`N - 1` times; when the loop-limit check fires, the chain accumulated so
far is returned with a nil error; and with `loopLimit = 3` over an
unbounded issuer chain the result is the 3-element chain, no error, after
2 fetches. -/
theorem C3_loop_limit_bounds_fetches (r : urlResolver) (certs : List Certificate) :
    (∀ out trace reason, r.ResolveT certs = (out, trace, reason) →
      trace.length ≤ r.loopLimit - 1) ∧
    (∀ out trace, r.ResolveT certs = (out, trace, StopReason.limitExceeded) →
      ∃ t, out = some (some (certs ++ t), none)) ∧
    unboundedResolver.ResolveT [certA] =
      (some (some [certA, certB, certB], none), ["http://a", "http://b"],
        StopReason.limitExceeded) := by
  refine ⟨?_, ?_, rfl⟩
  · intro out trace reason h
    unfold urlResolver.ResolveT at h
    split at h
    · simp only [Prod.mk.injEq] at h
      obtain ⟨-, htr, -⟩ := h
      rw [← htr]
      simp
    · exact (resolveLoopT_cases r _ _ _ _ _ h).1
  · intro out trace h
    unfold urlResolver.ResolveT at h
    split at h
    · simp at h
    · exact (resolveLoopT_cases r _ _ _ _ _ h).2.1 rfl

/-- Witness for C3: the fetch bound instantiated on the concrete
unbounded-chain run. -/
theorem C3_loop_limit_bounds_fetches_witness :
    (["http://a", "http://b"] : List String).length ≤
      unboundedResolver.loopLimit - 1 :=
  (C3_loop_limit_bounds_fetches unboundedResolver [certA]).1
    (some (some [certA, certB, certB], none)) ["http://a", "http://b"]
    StopReason.limitExceeded rfl

/-- C4: any chain `Resolve` returns contains the input chain as a prefix:
nothing is removed or reordered, certificates are only appended, and the
head of the result is the original input leaf. -/
theorem C4_input_chain_preserved (r : urlResolver)
    (certs chain : List Certificate) (e : Option ResolveError)
    (h : r.Resolve certs = some (some chain, e)) :
    (∃ t, chain = certs ++ t) ∧ (certs ≠ [] → chain.head? = certs.head?) := by
  have hext : ∃ t, chain = certs ++ t := by
    unfold urlResolver.Resolve at h
    split at h
    · simp at h
    · exact resolveLoop_extends r _ _ _ _ h
  refine ⟨hext, ?_⟩
  intro hne
  obtain ⟨t, rfl⟩ := hext
  cases certs with
  | nil => exact absurd rfl hne
  | cons c cs => simp

/-- Witness for C4 on a run that appends a root certificate. -/
theorem C4_input_chain_preserved_witness :
    (∃ t, [certA, rootCert] = [certA] ++ t) ∧
    ([certA] ≠ [] → [certA, rootCert].head? = [certA].head?) :=
  C4_input_chain_preserved rootResolver [certA] [certA, rootCert] none rfl

/-- C5 counterexample: a fetch failure whose cause names neither the URL
nor the certificate yields a `Resolve` error mentioning neither the
issuer URL fetched nor the certificate being resolved — that context goes
into the warning log only, not into the returned error. -/
theorem C5_counterexample :
    refusedResolver.Resolve [leafCert] =
      some (none, some (ResolveError.fetchIssuer
        (FetchIssuerError.remoteFetchFailure "connection refused"))) ∧
    strHasSub (ResolveError.fetchIssuer
      (FetchIssuerError.remoteFetchFailure "connection refused")).message
      "http://issuer.example/ca.crt" = false ∧
    strHasSub (ResolveError.fetchIssuer
      (FetchIssuerError.remoteFetchFailure "connection refused")).message
      "leaf-cert" = false :=
  ⟨rfl, by decide, by decide⟩

/-- C5 amended: the returned error wraps the originating cause under the
fixed `fmt.Errorf` prefixes; the issuer URL and the certificate identity
are not embedded in the returned error itself (beyond whatever the cause
string happens to contain). -/
theorem C5_error_wraps_cause (r : urlResolver) (certs : List Certificate)
    (res : Option (List Certificate)) (e : ResolveError)
    (h : r.Resolve certs = some (res, some e)) :
    ∃ fe, e = ResolveError.fetchIssuer fe ∧
      e.message = "error while fetching issuer certificate: " ++ fe.message ∧
      ∃ cause,
        (fe = FetchIssuerError.remoteFetchFailure cause ∧
          fe.message = "remote fetch failure: " ++ cause) ∨
        (fe = FetchIssuerError.decodingFailure cause ∧
          fe.message = "decoding failure: " ++ cause) := by
  have herr : res = none ∧ ∃ fe, e = ResolveError.fetchIssuer fe := by
    unfold urlResolver.Resolve at h
    split at h
    · simp at h
    · exact resolveLoop_error_none r _ _ _ _ h
  obtain ⟨-, fe, rfl⟩ := herr
  refine ⟨fe, rfl, rfl, ?_⟩
  cases fe with
  | remoteFetchFailure cause => exact ⟨cause, Or.inl ⟨rfl, rfl⟩⟩
  | decodingFailure cause => exact ⟨cause, Or.inr ⟨rfl, rfl⟩⟩

/-- Witness for C5 at the concrete refused connection. -/
theorem C5_error_wraps_cause_witness :
    ∃ fe, ResolveError.fetchIssuer (FetchIssuerError.remoteFetchFailure
        "connection refused") = ResolveError.fetchIssuer fe ∧
      (ResolveError.fetchIssuer (FetchIssuerError.remoteFetchFailure
        "connection refused")).message =
        "error while fetching issuer certificate: " ++ fe.message ∧
      ∃ cause,
        (fe = FetchIssuerError.remoteFetchFailure cause ∧
          fe.message = "remote fetch failure: " ++ cause) ∨
        (fe = FetchIssuerError.decodingFailure cause ∧
          fe.message = "decoding failure: " ++ cause) :=
  C5_error_wraps_cause refusedResolver [leafCert] none
    (ResolveError.fetchIssuer (FetchIssuerError.remoteFetchFailure
      "connection refused")) rfl

/-- C6: when resolution stops because the freshly appended certificate is
detected as a root, the last element of the returned chain has issuer
identity equal to its subject identity and a signature that verifies
against its own embedded public key. -/
theorem C6_root_stop_last_is_self_signed (r : urlResolver)
    (certs : List Certificate)
    (out : Option (Option (List Certificate) × Option ResolveError))
    (trace : List String)
    (h : r.ResolveT certs = (out, trace, StopReason.rootReached)) :
    ∃ chain c, out = some (some chain, none) ∧ chain.getLast? = some c ∧
      c.issuer = c.subject ∧ c.selfSignatureValid = true := by
  have hroot : ∃ chain c, out = some (some chain, none) ∧
      chain.getLast? = some c ∧ isSelfSigned c = true := by
    unfold urlResolver.ResolveT at h
    split at h
    · simp at h
    · exact (resolveLoopT_cases r _ _ _ _ _ h).2.2.1 rfl
  obtain ⟨chain, c, h1, h2, h3⟩ := hroot
  simp only [isSelfSigned, Bool.and_eq_true, beq_iff_eq] at h3
  exact ⟨chain, c, h1, h2, h3.1, h3.2⟩

/-- Witness for C6 on a run that fetches a self-signed root. -/
theorem C6_root_stop_last_is_self_signed_witness :
    ∃ chain c,
      (some (some [certA, rootCert], none) :
        Option (Option (List Certificate) × Option ResolveError)) =
        some (some chain, none) ∧ chain.getLast? = some c ∧
      c.issuer = c.subject ∧ c.selfSignatureValid = true :=
  C6_root_stop_last_is_self_signed rootResolver [certA]
    (some (some [certA, rootCert], none)) ["http://a"] rfl

/-- C7: a single-element chain whose leaf carries no issuer-fetch URL is
returned unchanged with no error — a success, not an error. -/
theorem C7_no_issuer_url_unchanged (r : urlResolver) (c : Certificate)
    (h : c.IssuingCertificateURL = none) :
    r.Resolve [c] = some (some [c], none) := by
  unfold urlResolver.Resolve
  rw [if_neg (by simp)]
  cases hf : r.loopLimit - 1 with
  | zero => rfl
  | succ fuel =>
    unfold urlResolver.resolveLoop
    simp [h]

/-- Witness for C7 with a concrete URL-less certificate. -/
theorem C7_no_issuer_url_unchanged_witness :
    refusedResolver.Resolve [noURLCert] = some (some [noURLCert], none) :=
  C7_no_issuer_url_unchanged refusedResolver noURLCert rfl

/-- C8: evaluation of the code at the failing input. A certificate whose
issuer-URL list is present but empty passes the nil-only guard of
`Resolve`, and the first-URL access `IssuingCertificateURL[0]` is then
out of bounds: the run ends in the modelled runtime panic (`none`),
contradicting the claim that the access is always within bounds. -/
theorem C8_empty_url_list_out_of_bounds :
    refusedResolver.Resolve [emptyListCert] = none ∧
    emptyListCert.IssuingCertificateURL ≠ none ∧
    firstIssuerURL emptyListCert = none :=
  ⟨rfl, by decide, rfl⟩

/-- C9: exactly the first issuer URL is fetched: two resolvers with equal
decoders whose fetchers agree on the first URL of a certificate behave
identically on it, and when the first URL fails the alternate is not
tried even though fetching it would succeed and decode to a root. -/
theorem C9_only_first_url (r1 r2 : urlResolver) (cert : Certificate)
    (hdec : r1.decoder = r2.decoder)
    (hfir : ∀ u rest, cert.IssuingCertificateURL = some (u :: rest) →
      r1.fetcher u = r2.fetcher u) :
    r1.fetchIssuerCertificate cert = r2.fetchIssuerCertificate cert ∧
    twoURLResolver.Resolve [twoURLCert] =
      some (none, some (ResolveError.fetchIssuer
        (FetchIssuerError.remoteFetchFailure "bad url down"))) := by
  refine ⟨?_, rfl⟩
  unfold urlResolver.fetchIssuerCertificate firstIssuerURL
  cases hu : cert.IssuingCertificateURL with
  | none => rfl
  | some urls =>
    cases urls with
    | nil => rfl
    | cons u rest =>
      simp only [List.head?]
      simp only [hfir u rest hu, hdec]

/-- Witness for C9: the two concrete resolvers agree on `twoURLCert`
because they agree on its first URL, while differing on the alternate. -/
theorem C9_only_first_url_witness :
    twoURLResolver.fetchIssuerCertificate twoURLCert =
      altResolver.fetchIssuerCertificate twoURLCert ∧
    twoURLResolver.Resolve [twoURLCert] =
      some (none, some (ResolveError.fetchIssuer
        (FetchIssuerError.remoteFetchFailure "bad url down"))) :=
  C9_only_first_url twoURLResolver altResolver twoURLCert rfl
    (by
      intro u rest h
      simp only [twoURLCert, Option.some.injEq, List.cons.injEq] at h
      obtain ⟨rfl, -⟩ := h
      rfl)

/-- C10: the empty input chain returns an empty result (Go `nil, nil`)
with no error, performing no fetch. -/
theorem C10_empty_chain_no_fetch (r : urlResolver) :
    r.Resolve [] = some (none, none) ∧
    r.ResolveT [] = (some (none, none), [], StopReason.nothingToResolve) :=
  ⟨rfl, rfl⟩

end CaChain
